import Mathlib

/-!
Verification of the ChadJaew2 telescope-camera core: the MediaMTX process
supervisor (server.js) and the capture lifecycle manager (captureService.js).

The supervisor is embedded as a discrete-event state machine: the mutable
module state of server.js (restartState, mediamtxProcess, pending timeouts)
becomes an explicit `SupState`, and the asynchronous callbacks (process exit,
setTimeout firings, stop) become inputs consumed by a step function.  Times
are in milliseconds, process handles are numeric pids.  The capture service's
async methods become pure functions of the session plus an environment record
describing the behaviour of the external world (health probe answers, df
output, process exit behaviour, stat results).
-/

namespace ChadJaew2

/-! ### Supervisor constants (server.js, MEDIAMTX_RESTART) -/

def initialDelay : Nat := 2000
def maxDelay : Nat := 60000
def maxRestarts : Nat := 10
def resetAfter : Nat := 300000

/-- Events broadcast by the supervisor.  `streamStopped` carries the exit code
(`none` models a null code, i.e. killed by signal); `streamErrorTooMany` is
the permanent-failure broadcast from `scheduleRestart`. -/
inductive SupEvent
  | streamStopped (code : Option Int)
  | streamErrorTooMany
deriving DecidableEq

/-- The supervisor's state: `count`, `delay`, `lastStable` mirror
`restartState`; `proc` mirrors the `mediamtxProcess` handle (which may keep
pointing at a process that already exited, since the exit handler never nulls
it); `alive` is the set of pids whose OS process is still running;
`restartTimers` are the fire times of pending `setTimeout(startMediaMTX, _)`
calls; `stabTimers` are pending stability timeouts (fire time, pid that was
current when armed — the pid is bookkeeping only, the handler never reads it,
exactly as in the source closure); `scheduled` records the delay argument of
every `setTimeout(startMediaMTX, delay)` issued, newest last. -/
structure SupState where
  now : Nat
  count : Nat
  delay : Nat
  lastStable : Option Nat
  proc : Option Nat
  alive : List Nat
  nextPid : Nat
  restartTimers : List Nat
  stabTimers : List (Nat × Nat)
  events : List SupEvent
  scheduled : List Nat
deriving DecidableEq

def initialSupState : SupState :=
  { now := 0, count := 0, delay := initialDelay, lastStable := none,
    proc := none, alive := [], nextPid := 0, restartTimers := [],
    stabTimers := [], events := [], scheduled := [] }

/-- server.js `resetRestartState`. -/
def resetRestartState (s : SupState) : SupState :=
  { s with count := 0, delay := initialDelay, lastStable := none }

/-- server.js `scheduleRestart`: increment count; if over the cap broadcast
the permanent failure and return; otherwise arm the restart timeout with the
current delay and double the delay (capped). -/
def scheduleRestart (s : SupState) : SupState :=
  let s1 := { s with count := s.count + 1 }
  if maxRestarts < s1.count then
    { s1 with events := s1.events ++ [SupEvent.streamErrorTooMany] }
  else
    { s1 with restartTimers := s1.restartTimers ++ [s1.now + s1.delay],
              scheduled := s1.scheduled ++ [s1.delay],
              delay := min (s1.delay * 2) maxDelay }

/-- server.js `startMediaMTX`: spawn a fresh process (it becomes the handle
and is alive), set `lastStableTime := Date.now()` and arm the one-shot
stability timeout `resetAfter` from now. -/
def startMediaMTX (s : SupState) : SupState :=
  { s with proc := some s.nextPid,
           alive := s.alive ++ [s.nextPid],
           nextPid := s.nextPid + 1,
           lastStable := some s.now,
           stabTimers := s.stabTimers ++ [(s.now + resetAfter, s.nextPid)] }

/-- server.js `stopMediaMTX`: if a handle is held, SIGTERM it and null the
handle.  The kill signal itself acts on the OS process asynchronously (a
still-alive process will later produce an `exited` input with a null code);
no timer of any kind is touched. -/
def stopMediaMTX (s : SupState) : SupState :=
  { s with proc := none }

/-- Asynchronous happenings consumed by the supervisor: an explicit
`stopMediaMTX` call, an OS process exit (delivered to that process's `exit`
handler), the firing of the earliest pending restart timeout, the firing of
the `i`-th pending stability timeout, or mere passage of time. -/
inductive SupInput
  | stop
  | exited (pid : Nat) (code : Option Int)
  | fireRestart
  | fireStab (i : Nat)
  | wait (d : Nat)
deriving DecidableEq

/-- One step of the supervisor.  The `exit` handler of server.js broadcasts
`streamStopped{code}` and calls `scheduleRestart()` when `code !== 0` (note a
null code from a signal also satisfies that test); it does not clear the
handle.  The stability timeout handler re-reads the current handle and
`lastStableTime` and resets the restart state when the handle is non-null and
at least `resetAfter` elapsed since `lastStableTime`. -/
def supStep (s : SupState) (inp : SupInput) : SupState :=
  match inp with
  | .stop => stopMediaMTX s
  | .exited pid code =>
      if pid ∈ s.alive then
        let s1 := { s with alive := s.alive.erase pid,
                           events := s.events ++ [SupEvent.streamStopped code] }
        if code = some 0 then s1 else scheduleRestart s1
      else s
  | .fireRestart =>
      match s.restartTimers with
      | [] => s
      | t :: rest => startMediaMTX { s with restartTimers := rest, now := max s.now t }
  | .fireStab i =>
      match s.stabTimers.get? i with
      | none => s
      | some (ft, _) =>
          let s1 := { s with stabTimers := s.stabTimers.eraseIdx i,
                             now := max s.now ft }
          match s1.proc, s1.lastStable with
          | some _, some t0 =>
              if resetAfter ≤ s1.now - t0 then resetRestartState s1 else s1
          | _, _ => s1
  | .wait d => { s with now := s.now + d }

/-- A run of the program: server.js calls `startMediaMTX()` once at startup,
then the state evolves under the asynchronous inputs. -/
def runSup (inputs : List SupInput) : SupState :=
  inputs.foldl supStep (startMediaMTX initialSupState)

/-- A crash loop: the current process (pid `i`) exits nonzero and the restart
timeout then fires, `k` times over. -/
def crashTrace (k : Nat) : List SupInput :=
  (List.range k).flatMap (fun i => [SupInput.exited i (some 1), SupInput.fireRestart])

/-- Number of permanent-failure broadcasts so far. -/
def countPF (s : SupState) : Nat := s.events.count SupEvent.streamErrorTooMany

/-- Invariant of all reachable supervisor states: at most one process alive
or restart pending, at most one permanent-failure broadcast, a broadcast
permanent failure means nothing is alive or pending, and a count over the
cap means the failure was broadcast. -/
def SupInv (s : SupState) : Prop :=
  s.alive.length + s.restartTimers.length ≤ 1 ∧
  countPF s ≤ 1 ∧
  (1 ≤ countPF s → s.alive = [] ∧ s.restartTimers = []) ∧
  (maxRestarts < s.count → countPF s = 1)

/-- Nothing alive and no pending restart: from here the supervisor can never
spawn, broadcast, or schedule anything again. -/
def Quiesced (s : SupState) : Prop := s.alive = [] ∧ s.restartTimers = []

/-! ### Capture lifecycle manager (captureService.js) -/

def MIN_DISK_SPACE_MB : Int := 500
def healthRetries : Nat := 3
def healthRetryDelayMs : Nat := 1000
def gracefulTimeoutMs : Nat := 5000
def syncDelayMs : Nat := 500
def statRetries : Nat := 3
def statRetryDelayMs : Nat := 300

/-- The recording session fields of the CaptureService instance. -/
structure RecSession where
  isRecording : Bool
  currentVideoFile : Option String
  recordingStartTime : Option Nat
  recordingProcess : Option Nat
deriving DecidableEq

def idleSession : RecSession :=
  { isRecording := false, currentVideoFile := none,
    recordingStartTime := none, recordingProcess := none }

/-- Closed result type standing for the dynamic return-value / thrown-Error
convention of captureService.js; each `err` constructor is one of the
distinct Error messages thrown by the source. -/
inductive CapError
  | alreadyRecording
  | notRecording
  | streamNotReady
  | insufficientSpace (availableMB : Int)
  | photoCaptureFailed (diagTail : String)
  | videoVerifyFailed
  | invalidFilename
  | fileNotFound
deriving DecidableEq

inductive CapResult (α : Type)
  | ok (val : α)
  | err (e : CapError)
deriving DecidableEq

/-- `generateFilename`: type prefix, normalized timestamp, extension.  The
timestamp text is supplied by the clock environment. -/
def generateFilename (ty ts ext : String) : String :=
  ty ++ "_" ++ ts ++ "." ++ ext

/-- `checkStreamHealth` body: attempt the probe (outcome `h attempt`), return
on success, otherwise await `delayMs` between attempts; gives the final
verdict and the total time spent waiting between attempts. -/
def checkStreamHealthFrom (h : Nat → Bool) (delayMs : Nat) :
    Nat → Nat → Bool × Nat
  | _, 0 => (false, 0)
  | attempt, fuel + 1 =>
      if h attempt then (true, 0)
      else if fuel = 0 then (false, 0)
      else
        let r := checkStreamHealthFrom h delayMs (attempt + 1) fuel
        (r.1, delayMs + r.2)

def checkStreamHealth (h : Nat → Bool) (retries delayMs : Nat) : Bool × Nat :=
  checkStreamHealthFrom h delayMs 1 retries

structure DiskInfo where
  available : Int
  sufficient : Bool
deriving DecidableEq

/-- `checkDiskSpace`: `df` is the parsed megabyte count from the probe
command, `none` when the command itself failed (execAsync threw); the catch
branch returns available 0, sufficient false. -/
def checkDiskSpace (df : Option Int) : DiskInfo :=
  match df with
  | some mb => { available := mb, sufficient := decide (MIN_DISK_SPACE_MB ≤ mb) }
  | none => { available := 0, sufficient := false }

/-! #### capturePhoto -/

structure PhotoEnv where
  health : Nat → Bool
  ffmpegOk : Bool
  statSize : Nat
  errText : String
  ts : String

structure PhotoOk where
  filename : String
  size : Nat
deriving DecidableEq

structure PhotoOutcome where
  result : CapResult PhotoOk
  commandInvoked : Bool
  finalFiles : List String
deriving DecidableEq

/-- `capturePhoto`: generate the filename, gate on the health probe (throwing
the not-ready Error before ffmpeg is ever invoked), then run the one-shot
ffmpeg command; on command failure unlink the partial file (best-effort) and
throw with the last 200 characters of the diagnostic output.  `finalFiles`
lists the output files this call leaves on disk. -/
def capturePhoto (env : PhotoEnv) : PhotoOutcome :=
  let filename := generateFilename "photo" env.ts "jpg"
  if (checkStreamHealth env.health healthRetries healthRetryDelayMs).1 = false then
    { result := .err .streamNotReady, commandInvoked := false, finalFiles := [] }
  else if env.ffmpegOk then
    { result := .ok { filename := filename, size := env.statSize },
      commandInvoked := true, finalFiles := [filename] }
  else
    { result := .err (.photoCaptureFailed (env.errText.drop (env.errText.length - 200))),
      commandInvoked := true, finalFiles := [] }

/-! #### startRecording -/

structure StartEnv where
  health : Nat → Bool
  df : Option Int
  ts : String
  now : Nat
  pid : Nat

structure StartOk where
  filename : String
  diskSpaceAvailable : Int
deriving DecidableEq

structure StartOutcome where
  result : CapResult StartOk
  session : RecSession
  probedHealth : Bool
  spawned : Bool
deriving DecidableEq

/-- `startRecording`, in source order: conflict check first (before any
suspension), then the health probe, then the disk-space gate, then spawn and
session bookkeeping. -/
def startRecording (s : RecSession) (env : StartEnv) : StartOutcome :=
  if s.isRecording then
    { result := .err .alreadyRecording, session := s,
      probedHealth := false, spawned := false }
  else if (checkStreamHealth env.health healthRetries healthRetryDelayMs).1 = false then
    { result := .err .streamNotReady, session := s,
      probedHealth := true, spawned := false }
  else
    let disk := checkDiskSpace env.df
    if disk.sufficient = false then
      { result := .err (.insufficientSpace disk.available), session := s,
        probedHealth := true, spawned := false }
    else
      let filename := generateFilename "video" env.ts "mp4"
      { result := .ok { filename := filename, diskSpaceAvailable := disk.available },
        session := { isRecording := true, currentVideoFile := some filename,
                     recordingStartTime := some env.now,
                     recordingProcess := some env.pid },
        probedHealth := true, spawned := true }

/-! #### stopRecording -/

/-- Behaviour of the external ffmpeg recording process and filesystem during
a stop: whether stdin is writable, how long after the cooperative q the
process would exit on its own (`none` = it ignores the q), how long after a
SIGTERM it exits, and the stat result on each verification attempt
(`none` = stat throws, otherwise the reported size). -/
structure StopEnv where
  stdinWritable : Bool
  qExit : Option Nat
  termExit : Nat
  stat : Nat → Option Nat
  now : Nat

structure StopOk where
  size : Nat
  duration : Nat
deriving DecidableEq

/-- Timeline (all times relative to the stopRecording call) and results of a
stop: when q was written, when SIGTERM was sent, when the process exited,
when the session became idle, and when the promise settled. -/
structure StopOutcome where
  result : CapResult StopOk
  session : RecSession
  qSentAt : Option Nat
  sigtermAt : Option Nat
  exitAt : Nat
  idleAt : Nat
  settledAt : Nat
deriving DecidableEq

def statOk (r : Option Nat) : Option Nat :=
  match r with
  | some sz => if 0 < sz then some sz else none
  | none => none

/-- The three stat attempts of the verification loop: index and size of the
first attempt that found a nonzero-size file. -/
def firstGoodStat (stat : Nat → Option Nat) : Option (Nat × Nat) :=
  match statOk (stat 0) with
  | some sz => some (0, sz)
  | none =>
    match statOk (stat 1) with
    | some sz => some (1, sz)
    | none =>
      match statOk (stat 2) with
      | some sz => some (2, sz)
      | none => none

/-- `stopRecording`: conflict check, then write q to stdin when writable
(else SIGTERM immediately); a 5000 ms timeout escalates to SIGTERM when the
process has not exited by then; the exit handler clears the timeout, resets
the session to idle, waits 500 ms for sync, then stats up to three times
300 ms apart, resolving with the artifact on a nonzero size and rejecting
with the verification Error otherwise. -/
def stopRecording (s : RecSession) (env : StopEnv) : StopOutcome :=
  if s.isRecording = false ∨ s.recordingProcess = none then
    { result := .err .notRecording, session := s, qSentAt := none,
      sigtermAt := none, exitAt := 0, idleAt := 0, settledAt := 0 }
  else
    let duration := (env.now - (s.recordingStartTime.getD 0)) / 1000
    let qSentAt : Option Nat := if env.stdinWritable then some 0 else none
    let st :=
      if env.stdinWritable then
        match env.qExit with
        | some d =>
            if d < gracefulTimeoutMs then (Option.none (α := Nat), d)
            else (some gracefulTimeoutMs, min d (gracefulTimeoutMs + env.termExit))
        | none => (some gracefulTimeoutMs, gracefulTimeoutMs + env.termExit)
      else (some 0, env.termExit)
    let exitAt := st.2
    let idle : RecSession := { s with isRecording := false, recordingProcess := none }
    match firstGoodStat env.stat with
    | some (i, sz) =>
        { result := .ok { size := sz, duration := duration }, session := idle,
          qSentAt := qSentAt, sigtermAt := st.1, exitAt := exitAt,
          idleAt := exitAt, settledAt := exitAt + syncDelayMs + i * statRetryDelayMs }
    | none =>
        { result := .err .videoVerifyFailed, session := idle,
          qSentAt := qSentAt, sigtermAt := st.1, exitAt := exitAt,
          idleAt := exitAt, settledAt := exitAt + syncDelayMs + statRetries * statRetryDelayMs }

/-! #### getFilePath and deleteCapture

Paths are modelled as segment lists under the filesystem root; PHOTOS_DIR and
VIDEOS_DIR stand for the absolute captures directories.  `joinNorm` models
Node's `path.join(dir, filename)`: the filename may itself contain separators
and dot-dot segments, which join normalizes away (a dot-dot above the root
stays at the root, as for absolute paths). -/

def PHOTOS_DIR : List String := ["captures", "photos"]
def VIDEOS_DIR : List String := ["captures", "videos"]

/-- JS `String.prototype.startsWith`, spelled out over the character list so
that it evaluates inside the kernel. -/
def strStartsWith (s pre : String) : Bool :=
  pre.data.isPrefixOf s.data

/-- Split on the path separator, dropping empty segments (as join does). -/
def splitSegsAux : List Char → List Char → List (List Char)
  | [], acc => [acc.reverse]
  | c :: cs, acc =>
      if c = '/' then acc.reverse :: splitSegsAux cs []
      else splitSegsAux cs (c :: acc)

def splitPath (s : String) : List String :=
  ((splitSegsAux s.data []).map (fun l => String.mk l)).filter (fun c => c ≠ "")

def normStep (stack : List String) (seg : String) : List String :=
  if seg = "." then stack
  else if seg = ".." then stack.tail
  else seg :: stack

def joinNorm (base : List String) (name : String) : List String :=
  ((base ++ splitPath name).foldl normStep []).reverse

/-- `getFilePath`: prefix-convention dispatch, `none` for any other name. -/
def getFilePath (filename : String) : Option (List String) :=
  if strStartsWith filename "photo_" then some (joinNorm PHOTOS_DIR filename)
  else if strStartsWith filename "video_" then some (joinNorm VIDEOS_DIR filename)
  else none

/-- `deleteCapture`: resolve via `getFilePath`, fail when the file does not
exist, otherwise unlink it; returns the path that gets unlinked. -/
def deleteCapture (fsHas : List String → Bool) (filename : String) :
    CapResult (List String) :=
  match getFilePath filename with
  | none => .err .invalidFilename
  | some p => if fsHas p then .ok p else .err .fileNotFound

/-! #### Concrete instances used to witness the theorems with hypotheses -/

def stabWitnessState : SupState :=
  { initialSupState with count := 3, proc := some 0, lastStable := some 0,
                         stabTimers := [(300000, 0)] }

def activeSessionW : RecSession :=
  { isRecording := true, currentVideoFile := some "video_t.mp4",
    recordingStartTime := some 1000, recordingProcess := some 3 }

def stopEnvW : StopEnv :=
  { stdinWritable := true, qExit := none, termExit := 700,
    stat := fun _ => none, now := 9000 }

def startEnvW : StartEnv :=
  { health := fun _ => true, df := none, ts := "t", now := 0, pid := 7 }

def photoEnvW : PhotoEnv :=
  { health := fun _ => false, ffmpegOk := true, statSize := 5,
    errText := "", ts := "t" }

/-! ## Theorems -/

theorem min_double (a c : Nat) : min (min a c * 2) c = min (a * 2) c := by
  omega

/-- After `n` consecutive calls of `scheduleRestart` (one per nonzero exit),
`count` is `n`, the stored delay is the capped double, and the delays passed
to `setTimeout` so far are exactly `min (initialDelay * 2 ^ i) maxDelay` for
`i = 0, …, n-1`. -/
theorem scheduleRestart_iterate (s : SupState) (h0 : s.count = 0)
    (h1 : s.delay = initialDelay) (h2 : s.scheduled = []) :
    ∀ n, n ≤ maxRestarts →
      (scheduleRestart^[n] s).count = n ∧
      (scheduleRestart^[n] s).delay = min (initialDelay * 2 ^ n) maxDelay ∧
      (scheduleRestart^[n] s).scheduled
        = (List.range n).map (fun i => min (initialDelay * 2 ^ i) maxDelay) := by
  intro n
  induction n with
  | zero =>
      intro _
      refine ⟨h0, ?_, by simpa using h2⟩
      simp only [Function.iterate_zero, id_eq, pow_zero, mul_one, h1]
      have : initialDelay ≤ maxDelay := by decide
      omega
  | succ n ih =>
      intro hn
      obtain ⟨ic, idl, isc⟩ := ih (by omega)
      rw [Function.iterate_succ_apply']
      have hlt : ¬ maxRestarts < (scheduleRestart^[n] s).count + 1 := by
        rw [ic]; omega
      have hlt' : ¬ maxRestarts < n + 1 := by omega
      refine ⟨?_, ?_, ?_⟩
      · simp [scheduleRestart, hlt, hlt', ic]
      · simp only [scheduleRestart, hlt, if_false]
        simp only [idl]
        rw [min_double, pow_succ, ← mul_assoc]
      · simp only [scheduleRestart, hlt, if_false]
        simp only [isc, idl]
        rw [List.range_succ, List.map_append]
        simp

/-- Claim C2: scheduled restart delays follow capped exponential backoff.
The `n`-th scheduled restart (0-based) is armed with delay
`min (initialDelay * 2 ^ n) maxDelay`; end to end, six consecutive nonzero
exits produce scheduled delays 2000, 4000, 8000, 16000, 32000, 60000 ms, and
a full crash loop schedules 60000 for every later restart up to the cap. -/
theorem restart_backoff_delays (n : Nat) (hn : n ≤ maxRestarts) :
    ((scheduleRestart^[n] (startMediaMTX initialSupState)).scheduled
        = (List.range n).map (fun i => min (initialDelay * 2 ^ i) maxDelay)) ∧
    ((scheduleRestart^[n] (startMediaMTX initialSupState)).delay
        = min (initialDelay * 2 ^ n) maxDelay) ∧
    (runSup (crashTrace 6)).scheduled = [2000, 4000, 8000, 16000, 32000, 60000] ∧
    (runSup (crashTrace 11)).scheduled
        = [2000, 4000, 8000, 16000, 32000, 60000, 60000, 60000, 60000, 60000] := by
  have h := scheduleRestart_iterate (startMediaMTX initialSupState) rfl rfl rfl n hn
  exact ⟨h.2.2, h.2.1, by decide, by decide⟩

theorem restart_backoff_delays_witness :
    (scheduleRestart^[6] (startMediaMTX initialSupState)).scheduled
      = (List.range 6).map (fun i => min (initialDelay * 2 ^ i) maxDelay) :=
  (restart_backoff_delays 6 (by decide)).1

/-- Claim C1 evidence: `stopMediaMTX` never cancels a pending scheduled
restart.  A nonzero exit at time 0 arms the restart timeout for time 2000;
calling stop clears the handle but the timeout stays armed, and when it
fires the media server is spawned again (pid 1 running). -/
theorem mediamtx_stop_leaves_restart_timer_armed :
    (runSup [SupInput.exited 0 (some 1), SupInput.stop]).restartTimers = [2000] ∧
    (runSup [SupInput.exited 0 (some 1), SupInput.stop]).proc = none ∧
    (runSup [SupInput.exited 0 (some 1), SupInput.stop,
             SupInput.fireRestart]).proc = some 1 ∧
    (runSup [SupInput.exited 0 (some 1), SupInput.stop,
             SupInput.fireRestart]).alive = [1] := by
  decide

/-- Claim C3 counterexample: pid 0 crashes at t=10, pid 1 starts at t=2010
and exits voluntarily (code 0) at t=2020 — the handle is never cleared by
the exit handler.  When pid 1's stability timeout fires at t=302010 the
guard sees a non-null handle and 300000 ms since `lastStableTime` and resets
the restart state, although pid 1 ran for only 10 ms and has been dead for
five minutes: the reset is not restricted to a process that has been running
continuously. -/
theorem stability_reset_fires_after_process_exit :
    (runSup [SupInput.wait 10, SupInput.exited 0 (some 1), SupInput.fireRestart,
             SupInput.wait 10, SupInput.exited 1 (some 0)]).count = 1 ∧
    (runSup [SupInput.wait 10, SupInput.exited 0 (some 1), SupInput.fireRestart,
             SupInput.wait 10, SupInput.exited 1 (some 0)]).alive = [] ∧
    (runSup [SupInput.wait 10, SupInput.exited 0 (some 1), SupInput.fireRestart,
             SupInput.wait 10, SupInput.exited 1 (some 0)]).proc = some 1 ∧
    (runSup [SupInput.wait 10, SupInput.exited 0 (some 1), SupInput.fireRestart,
             SupInput.wait 10, SupInput.exited 1 (some 0)]).stabTimers.get? 1
      = some (302010, 1) ∧
    (runSup [SupInput.wait 10, SupInput.exited 0 (some 1), SupInput.fireRestart,
             SupInput.wait 10, SupInput.exited 1 (some 0),
             SupInput.fireStab 1]).count = 0 ∧
    (runSup [SupInput.wait 10, SupInput.exited 0 (some 1), SupInput.fireRestart,
             SupInput.wait 10, SupInput.exited 1 (some 0),
             SupInput.fireStab 1]).delay = initialDelay := by
  decide

/-- Claim C3 amended: a firing stability timeout resets the restart state
exactly when the current handle is non-null and at least `resetAfter`
elapsed since `lastStableTime` — whether or not the referenced process is
still running is never consulted.  In particular a process that does run
continuously for `resetAfter` (pid 1 below, never exiting) gets the reset. -/
theorem stability_reset_characterization (s : SupState) (i ft p : Nat)
    (hget : s.stabTimers.get? i = some (ft, p)) (hc : s.count ≠ 0) :
    (((supStep s (SupInput.fireStab i)).count = 0 ∧
      (supStep s (SupInput.fireStab i)).delay = initialDelay ∧
      (supStep s (SupInput.fireStab i)).lastStable = none)
      ↔ (s.proc.isSome = true ∧
          ∃ t0, s.lastStable = some t0 ∧ resetAfter ≤ max s.now ft - t0)) ∧
    (runSup [SupInput.wait 10, SupInput.exited 0 (some 1), SupInput.fireRestart,
             SupInput.fireStab 1]).count = 0 := by
  refine ⟨?_, by decide⟩
  simp only [supStep, hget]
  rcases hp : s.proc with _ | pp <;> rcases hl : s.lastStable with _ | t0
  · simp [resetRestartState, hc]
  · simp [resetRestartState, hc]
  · simp [resetRestartState, hc]
  · by_cases hcond : resetAfter ≤ max s.now ft - t0
    · simp [resetRestartState, hcond]
    · simp [resetRestartState, hcond, hc]

theorem supInv_scheduleRestart (s : SupState) (halive : s.alive = [])
    (htim : s.restartTimers = []) (hpf : s.events.count SupEvent.streamErrorTooMany = 0) :
    SupInv (scheduleRestart s) := by
  simp only [scheduleRestart]
  by_cases hover : maxRestarts < s.count + 1
  · rw [if_pos hover]
    refine ⟨?_, ?_, ?_, ?_⟩
    · simp [halive, htim]
    · simp [countPF, List.count_append, List.count_cons, hpf]
    · intro _; exact ⟨halive, htim⟩
    · intro _; simp [countPF, List.count_append, List.count_cons, hpf]
  · rw [if_neg hover]
    refine ⟨?_, ?_, ?_, ?_⟩
    · simp [halive, htim]
    · simp [countPF, hpf]
    · intro hx; simp [countPF, hpf] at hx
    · intro hx; exact absurd hx hover

theorem supInv_step (s : SupState) (inp : SupInput) (h : SupInv s) :
    SupInv (supStep s inp) := by
  obtain ⟨h1, h2, h3, h4⟩ := h
  cases inp with
  | stop => exact ⟨h1, h2, h3, h4⟩
  | wait d => exact ⟨h1, h2, h3, h4⟩
  | exited pid code =>
      by_cases hmem : pid ∈ s.alive
      · have hlen1 : s.alive.length = 1 := by
          have hpos : 0 < s.alive.length :=
            List.length_pos.mpr (List.ne_nil_of_mem hmem)
          omega
        have htim : s.restartTimers = [] := by
          have hz : s.restartTimers.length = 0 := by omega
          exact List.length_eq_zero.mp hz
        have hpf0 : countPF s = 0 := by
          by_contra hne
          have hx := h3 (by omega)
          rw [hx.1] at hmem
          exact absurd hmem (List.not_mem_nil pid)
        have hpf0' : s.events.count SupEvent.streamErrorTooMany = 0 := hpf0
        have herase : s.alive.erase pid = [] := by
          obtain ⟨a, ha⟩ := List.length_eq_one.mp hlen1
          have hap : pid = a := by rw [ha] at hmem; simpa using hmem
          subst hap
          rw [ha]
          simp
        have hcnt10 : s.count ≤ maxRestarts := by
          by_contra hgt
          have := h4 (by omega)
          omega
        simp only [supStep, if_pos hmem]
        have hpf1 : (s.events ++ [SupEvent.streamStopped code]).count
            SupEvent.streamErrorTooMany = 0 := by
          simp [List.count_append, List.count_cons, hpf0']
        by_cases hcode : code = some 0
        · rw [if_pos hcode]
          refine ⟨?_, ?_, ?_, ?_⟩
          · simp [herase, htim]
          · simp [countPF, hpf1]
          · intro hx; simp [countPF, hpf1] at hx
          · have hno : ¬ maxRestarts < s.count := by omega
            exact fun hx => absurd hx hno
        · rw [if_neg hcode]
          exact supInv_scheduleRestart _ herase htim hpf1
      · simpa [supStep, hmem] using ⟨h1, h2, h3, h4⟩
  | fireRestart =>
      rcases htm : s.restartTimers with _ | ⟨t, rest⟩
      · simpa [supStep, htm] using ⟨h1, h2, h3, h4⟩
      · have hlen : s.alive.length = 0 ∧ rest.length = 0 := by
          rw [htm] at h1
          simp [List.length_cons] at h1
          omega
        have halive : s.alive = [] := List.length_eq_zero.mp hlen.1
        have hrest : rest = [] := List.length_eq_zero.mp hlen.2
        have hpf0' : s.events.count SupEvent.streamErrorTooMany = 0 := by
          by_contra hne
          have hx := h3 (by revert hne; unfold countPF; omega)
          rw [htm] at hx
          exact absurd hx.2 (by simp)
        have hcnt : ¬ maxRestarts < s.count := by
          intro hgt
          have hy := h4 hgt
          unfold countPF at hy
          omega
        simp only [supStep, htm]
        refine ⟨?_, ?_, ?_, ?_⟩
        · simp [startMediaMTX, halive, hrest]
        · simp [startMediaMTX, countPF, hpf0']
        · intro hx; simp [startMediaMTX, countPF, hpf0'] at hx
        · intro hx; exact absurd hx (by simpa [startMediaMTX] using hcnt)
  | fireStab i =>
      simp only [supStep]
      split
      · exact ⟨h1, h2, h3, h4⟩
      · split
        · split
          · refine ⟨h1, h2, h3, ?_⟩
            have hno : ¬ maxRestarts < 0 := by omega
            exact fun hx => absurd hx hno
          · exact ⟨h1, h2, h3, h4⟩
        · exact ⟨h1, h2, h3, h4⟩

theorem supInv_init : SupInv (startMediaMTX initialSupState) := by
  unfold SupInv
  refine ⟨by decide, by decide, ?_, ?_⟩
  · intro hx; exact absurd hx (by decide)
  · intro hx; exact absurd hx (by decide)

theorem supInv_foldl (l : List SupInput) (s : SupState) (h : SupInv s) :
    SupInv (l.foldl supStep s) := by
  induction l generalizing s with
  | nil => exact h
  | cons a l ih => exact ih _ (supInv_step s a h)

theorem supInv_run (inputs : List SupInput) : SupInv (runSup inputs) :=
  supInv_foldl inputs _ supInv_init

theorem quiesced_step (s : SupState) (inp : SupInput) (h : Quiesced s) :
    Quiesced (supStep s inp) ∧ (supStep s inp).events = s.events ∧
    (supStep s inp).scheduled = s.scheduled ∧ (supStep s inp).nextPid = s.nextPid := by
  obtain ⟨ha, ht⟩ := h
  cases inp with
  | stop => exact ⟨⟨ha, ht⟩, rfl, rfl, rfl⟩
  | wait d => exact ⟨⟨ha, ht⟩, rfl, rfl, rfl⟩
  | exited pid code => simp [supStep, ha, Quiesced, ht]
  | fireRestart => simp [supStep, ht, Quiesced, ha]
  | fireStab i =>
      simp only [supStep]
      split
      · exact ⟨⟨ha, ht⟩, rfl, rfl, rfl⟩
      · split
        · split
          · exact ⟨⟨ha, ht⟩, rfl, rfl, rfl⟩
          · exact ⟨⟨ha, ht⟩, rfl, rfl, rfl⟩
        · exact ⟨⟨ha, ht⟩, rfl, rfl, rfl⟩

theorem quiesced_foldl (l : List SupInput) (s : SupState) (h : Quiesced s) :
    Quiesced (l.foldl supStep s) ∧ (l.foldl supStep s).events = s.events ∧
    (l.foldl supStep s).scheduled = s.scheduled ∧
    (l.foldl supStep s).nextPid = s.nextPid := by
  induction l generalizing s with
  | nil => exact ⟨h, rfl, rfl, rfl⟩
  | cons a l ih =>
      obtain ⟨hq, he, hs, hn⟩ := quiesced_step s a h
      obtain ⟨q2, e2, s2, n2⟩ := ih _ hq
      exact ⟨q2, e2.trans he, s2.trans hs, n2.trans hn⟩

/-- Claim C5: once `count` exceeds `maxRestarts`, the execution is terminal:
whatever asynchronous inputs follow, the event log never changes again (so
the permanent-failure broadcast stays emitted exactly once), no restart is
ever scheduled again, and no further process is ever spawned. -/
theorem permanent_failure_terminal (pre post : List SupInput)
    (h : maxRestarts < (runSup pre).count) :
    countPF (runSup (pre ++ post)) = 1 ∧
    (runSup (pre ++ post)).events = (runSup pre).events ∧
    (runSup (pre ++ post)).scheduled = (runSup pre).scheduled ∧
    (runSup (pre ++ post)).restartTimers = [] ∧
    (runSup (pre ++ post)).nextPid = (runSup pre).nextPid := by
  obtain ⟨h1, h2, h3, h4⟩ := supInv_run pre
  have hpf : countPF (runSup pre) = 1 := h4 h
  have hq : Quiesced (runSup pre) := h3 (by omega)
  have hrun : runSup (pre ++ post) = post.foldl supStep (runSup pre) := by
    simp [runSup, List.foldl_append]
  obtain ⟨q2, e2, s2, n2⟩ := quiesced_foldl post (runSup pre) hq
  rw [hrun]
  refine ⟨?_, e2, s2, q2.2, n2⟩
  unfold countPF
  rw [e2]
  exact hpf

theorem permanent_failure_terminal_witness :
    countPF (runSup (crashTrace 11 ++
        [SupInput.exited 11 (some 1), SupInput.fireRestart, SupInput.wait 5])) = 1 ∧
    (runSup (crashTrace 11 ++
        [SupInput.exited 11 (some 1), SupInput.fireRestart, SupInput.wait 5])).events
      = (runSup (crashTrace 11)).events ∧
    (runSup (crashTrace 11 ++
        [SupInput.exited 11 (some 1), SupInput.fireRestart, SupInput.wait 5])).scheduled
      = (runSup (crashTrace 11)).scheduled ∧
    (runSup (crashTrace 11 ++
        [SupInput.exited 11 (some 1), SupInput.fireRestart, SupInput.wait 5])).restartTimers = [] ∧
    (runSup (crashTrace 11 ++
        [SupInput.exited 11 (some 1), SupInput.fireRestart, SupInput.wait 5])).nextPid
      = (runSup (crashTrace 11)).nextPid :=
  permanent_failure_terminal (crashTrace 11)
    [SupInput.exited 11 (some 1), SupInput.fireRestart, SupInput.wait 5] (by decide)

theorem stability_reset_characterization_witness :
    (((supStep stabWitnessState (SupInput.fireStab 0)).count = 0 ∧
      (supStep stabWitnessState (SupInput.fireStab 0)).delay = initialDelay ∧
      (supStep stabWitnessState (SupInput.fireStab 0)).lastStable = none)
      ↔ (stabWitnessState.proc.isSome = true ∧
          ∃ t0, stabWitnessState.lastStable = some t0 ∧
            resetAfter ≤ max stabWitnessState.now 300000 - t0)) ∧
    (runSup [SupInput.wait 10, SupInput.exited 0 (some 1), SupInput.fireRestart,
             SupInput.fireStab 1]).count = 0 :=
  stability_reset_characterization stabWitnessState 0 300000 0 (by decide) (by decide)

theorem firstGoodStat_lt (stat : Nat → Option Nat) (i sz : Nat)
    (h : firstGoodStat stat = some (i, sz)) : i < 3 := by
  unfold firstGoodStat at h
  rcases h0 : statOk (stat 0) with _ | s0 <;> simp only [h0] at h
  · rcases h1 : statOk (stat 1) with _ | s1 <;> simp only [h1] at h
    · rcases h2 : statOk (stat 2) with _ | s2 <;> simp only [h2] at h
      · simp at h
      · simp at h; omega
    · simp at h; omega
  · simp at h; omega

theorem checkStreamHealth_all_false (h : Nat → Bool)
    (hf : ∀ i, 1 ≤ i → i ≤ healthRetries → h i = false) :
    checkStreamHealth h healthRetries healthRetryDelayMs
      = (false, 2 * healthRetryDelayMs) := by
  have h1 := hf 1 (by decide) (by decide)
  have h2 := hf 2 (by decide) (by decide)
  have h3 := hf 3 (by decide) (by decide)
  simp [checkStreamHealth, healthRetries, healthRetryDelayMs,
        checkStreamHealthFrom, h1, h2, h3]

theorem checkStreamHealth_first (h : Nat → Bool) (hh : h 1 = true) :
    checkStreamHealth h healthRetries healthRetryDelayMs = (true, 0) := by
  simp [checkStreamHealth, healthRetries, healthRetryDelayMs,
        checkStreamHealthFrom, hh]

/-- Claim C4: on `stopRecording` with an active session and a capture
command that ignores the cooperative q (never exits from it), the q is
written first (at time 0), SIGTERM is sent exactly at the 5000 ms graceful
timeout, the process exits `termExit` after the SIGTERM, and the call
settles no later than the graceful timeout plus the SIGTERM response time
plus the fixed post-exit verification tail (500 ms sync + 3 × 300 ms). -/
theorem stopRecording_escalates_and_completes (s : RecSession) (env : StopEnv)
    (hrec : s.isRecording = true) (hproc : s.recordingProcess ≠ none)
    (hw : env.stdinWritable = true) (hq : env.qExit = none) :
    (stopRecording s env).qSentAt = some 0 ∧
    (stopRecording s env).sigtermAt = some gracefulTimeoutMs ∧
    (stopRecording s env).exitAt = gracefulTimeoutMs + env.termExit ∧
    (stopRecording s env).settledAt
      ≤ gracefulTimeoutMs + env.termExit + syncDelayMs
          + statRetries * statRetryDelayMs := by
  have hcond : ¬ (s.isRecording = false ∨ s.recordingProcess = none) := by
    simp [hrec, hproc]
  rcases hfg : firstGoodStat env.stat with _ | ⟨i, sz⟩
  · simp [stopRecording, hcond, hw, hq, hfg]
  · have hi : i < 3 := firstGoodStat_lt env.stat i sz hfg
    simp [stopRecording, hcond, hw, hq, hfg, statRetries, statRetryDelayMs]
    omega

theorem stopRecording_escalates_and_completes_witness :
    (stopRecording activeSessionW stopEnvW).qSentAt = some 0 ∧
    (stopRecording activeSessionW stopEnvW).sigtermAt = some gracefulTimeoutMs ∧
    (stopRecording activeSessionW stopEnvW).exitAt
      = gracefulTimeoutMs + stopEnvW.termExit ∧
    (stopRecording activeSessionW stopEnvW).settledAt
      ≤ gracefulTimeoutMs + stopEnvW.termExit + syncDelayMs
          + statRetries * statRetryDelayMs :=
  stopRecording_escalates_and_completes activeSessionW stopEnvW rfl
    (by decide) rfl rfl

/-- Claim C6: `startRecording` while a session is active returns the
conflict error straight away with the session record untouched, the health
probe never run and no capture command spawned. -/
theorem startRecording_conflict_fail_fast (s : RecSession) (env : StartEnv)
    (h : s.isRecording = true) :
    startRecording s env =
      { result := .err .alreadyRecording, session := s,
        probedHealth := false, spawned := false } := by
  simp [startRecording, h]

theorem startRecording_conflict_fail_fast_witness :
    startRecording activeSessionW startEnvW =
      { result := .err .alreadyRecording, session := activeSessionW,
        probedHealth := false, spawned := false } :=
  startRecording_conflict_fail_fast activeSessionW startEnvW rfl

/-- Claim C7: `stopRecording` on an active session resets the session to
idle (isRecording false, process handle cleared) at process-exit time,
strictly before the verification settles and independently of the stat
results; and when every stat attempt finds the file missing or empty, the
call rejects with the verification error while the session is idle. -/
theorem stopRecording_idle_independent_of_verification (s : RecSession)
    (env : StopEnv) (hrec : s.isRecording = true)
    (hproc : s.recordingProcess ≠ none) :
    ((stopRecording s env).session
        = { s with isRecording := false, recordingProcess := none } ∧
     (stopRecording s env).idleAt = (stopRecording s env).exitAt ∧
     (stopRecording s env).idleAt < (stopRecording s env).settledAt) ∧
    ((∀ i, i < statRetries → statOk (env.stat i) = none) →
      (stopRecording s env).result = CapResult.err CapError.videoVerifyFailed) := by
  have hcond : ¬ (s.isRecording = false ∨ s.recordingProcess = none) := by
    simp [hrec, hproc]
  constructor
  · rcases hfg : firstGoodStat env.stat with _ | ⟨i, sz⟩ <;>
      simp [stopRecording, hcond, hfg, syncDelayMs, statRetries,
            statRetryDelayMs] <;> omega
  · intro hstat
    have h0 := hstat 0 (by decide)
    have h1 := hstat 1 (by decide)
    have h2 := hstat 2 (by decide)
    have hfg : firstGoodStat env.stat = none := by
      simp [firstGoodStat, h0, h1, h2]
    simp [stopRecording, hcond, hfg]

theorem stopRecording_idle_independent_of_verification_witness :
    ((stopRecording activeSessionW stopEnvW).session
        = { activeSessionW with isRecording := false, recordingProcess := none } ∧
     (stopRecording activeSessionW stopEnvW).idleAt
        = (stopRecording activeSessionW stopEnvW).exitAt ∧
     (stopRecording activeSessionW stopEnvW).idleAt
        < (stopRecording activeSessionW stopEnvW).settledAt) ∧
    (stopRecording activeSessionW stopEnvW).result
        = CapResult.err CapError.videoVerifyFailed :=
  ⟨(stopRecording_idle_independent_of_verification activeSessionW stopEnvW rfl
      (by decide)).1,
   (stopRecording_idle_independent_of_verification activeSessionW stopEnvW rfl
      (by decide)).2 (fun _ _ => rfl)⟩

/-- Claim C8: when the health probe fails on all three attempts (spending
the fixed 1000 ms delay between consecutive attempts, 2000 ms in all),
`capturePhoto` fails with the distinct not-ready error, the ffmpeg capture
command is never invoked, and no output file is created. -/
theorem capturePhoto_not_ready_no_file (env : PhotoEnv)
    (h : ∀ i, 1 ≤ i → i ≤ healthRetries → env.health i = false) :
    capturePhoto env =
      { result := .err .streamNotReady, commandInvoked := false,
        finalFiles := [] } ∧
    checkStreamHealth env.health healthRetries healthRetryDelayMs
      = (false, 2 * healthRetryDelayMs) := by
  have hchk := checkStreamHealth_all_false env.health h
  refine ⟨?_, hchk⟩
  simp [capturePhoto, hchk]

theorem capturePhoto_not_ready_no_file_witness :
    capturePhoto photoEnvW =
      { result := .err .streamNotReady, commandInvoked := false,
        finalFiles := [] } ∧
    checkStreamHealth photoEnvW.health healthRetries healthRetryDelayMs
      = (false, 2 * healthRetryDelayMs) :=
  capturePhoto_not_ready_no_file photoEnvW (fun _ _ _ => rfl)

/-- Claim C9: `getFilePath` checks nothing but the `photo_` / `video_` name
convention — every other name maps to null — and for accepted names it
returns the raw join of the capture directory with the filename, so a name
beginning with `photo_` and containing separators and dot-dot segments
resolves outside the photos directory, and `deleteCapture` would unlink that
outside path when it exists. -/
theorem getFilePath_validation_and_traversal (s : String)
    (h1 : strStartsWith s "photo_" = false)
    (h2 : strStartsWith s "video_" = false) :
    getFilePath s = none ∧
    getFilePath "photo_/../../../secret" = some ["secret"] ∧
    (getFilePath "photo_/../../../secret").map (fun p => p.take 2)
      ≠ some PHOTOS_DIR ∧
    deleteCapture (fun p => p == ["secret"]) "photo_/../../../secret"
      = CapResult.ok ["secret"] := by
  exact ⟨by simp [getFilePath, h1, h2], by decide, by decide, by decide⟩

theorem getFilePath_validation_and_traversal_witness :
    getFilePath "cat.txt" = none ∧
    getFilePath "photo_/../../../secret" = some ["secret"] ∧
    (getFilePath "photo_/../../../secret").map (fun p => p.take 2)
      ≠ some PHOTOS_DIR ∧
    deleteCapture (fun p => p == ["secret"]) "photo_/../../../secret"
      = CapResult.ok ["secret"] :=
  getFilePath_validation_and_traversal "cat.txt" (by decide) (by decide)

/-- Claim C10: when the df probe command itself fails, `checkDiskSpace`
returns available 0 / insufficient instead of raising, and `startRecording`
therefore surfaces the probe failure as the ordinary insufficient-disk-space
error reporting 0 MB available. -/
theorem disk_probe_failure_as_insufficient_space (s : RecSession)
    (env : StartEnv) (hidle : s.isRecording = false) (hdf : env.df = none)
    (hh : env.health 1 = true) :
    checkDiskSpace env.df = { available := 0, sufficient := false } ∧
    (startRecording s env).result
      = CapResult.err (CapError.insufficientSpace 0) := by
  have hchk := checkStreamHealth_first env.health hh
  refine ⟨by simp [checkDiskSpace, hdf], ?_⟩
  simp [startRecording, hidle, hchk, checkDiskSpace, hdf]

theorem disk_probe_failure_as_insufficient_space_witness :
    checkDiskSpace startEnvW.df = { available := 0, sufficient := false } ∧
    (startRecording idleSession startEnvW).result
      = CapResult.err (CapError.insufficientSpace 0) :=
  disk_probe_failure_as_insufficient_space idleSession startEnvW rfl rfl rfl

end ChadJaew2
